import Mathlib

/-!
Verification of the sea-cinema booking bot (`src/bot.ts`) against its
natural-language specification.

The source is a single-file Telegram bot.  Its mutable state consists of the
top-level arrays `shows`, `seats` and `orders`, plus a per-chat `PickSession`.
Each bot handler is embedded below as a pure function from the global state
(and the caller's session, where the handler reads it) to the new state plus
the reply it sends.  JavaScript's `array.find(...)` followed by in-place
mutation of the found element is modelled by `updateFirst`, which rewrites the
first element of a list satisfying a predicate.  `Date.now()` and the nanoid
order-id generator are modelled as explicit parameters (`now`, `freshId`).
Admin handlers are modelled after their `isAdmin` guard has passed, since no
claim concerns the guard itself.
-/

namespace SeaCinema

/-- `Show` record from `bot.ts` (`{id, dateTime, movie}`). -/
structure Show where
  id : Nat
  dateTime : String
  movie : String
deriving DecidableEq, Repr

/-- Seat status union type `"free" | "hold" | "paid"`. -/
inductive SeatStatus where
  | free
  | hold
  | paid
deriving DecidableEq, Repr

/-- `Seat` record from `bot.ts`; `orderId` is the optional `orderId?: string`
field (the spec's `heldByOrder`). -/
structure Seat where
  id : Nat
  seatNo : Nat
  showId : Nat
  status : SeatStatus
  orderId : Option String
deriving DecidableEq, Repr

/-- Payment status union type `"pending" | "paid"`. -/
inductive PayStatus where
  | pending
  | paid
deriving DecidableEq, Repr

/-- `Order` record from `bot.ts`. -/
structure Order where
  id : String
  tgUser : Nat
  showId : Nat
  seatIds : List Nat
  amount : Nat
  payStatus : PayStatus
  last4 : Option String
  created : Nat
deriving DecidableEq, Repr

/-- Pick-session stages `"idle" | "picking" | "await_payment"`. -/
inductive Stage where
  | idle
  | picking
  | awaitPayment
deriving DecidableEq, Repr

/-- `PickSession` from `bot.ts` (per-chat, ephemeral). -/
structure PickSession where
  stage : Stage
  orderId : Option String
  showId : Option Nat
  seatIds : Option (List Nat)
deriving DecidableEq, Repr

/-- The bot's global mutable state: the top-level `shows`, `seats` and
`orders` arrays. -/
structure GlobalState where
  shows : List Show
  seats : List Seat
  orders : List Order
deriving DecidableEq, Repr

/-- `initialSession()` from `bot.ts`: `{ stage: "idle" }`. -/
def initialSession : PickSession := ⟨Stage.idle, none, none, none⟩

/-- `TICKET_PRICE = 600`. -/
def TICKET_PRICE : Nat := 600

/-- JS `array.find(p)` followed by in-place mutation `f` of the found
element: rewrite the first element satisfying `p`; leave the list unchanged
when no element matches. -/
def updateFirst (p : α → Bool) (f : α → α) : List α → List α
  | [] => []
  | x :: xs => if p x then f x :: xs else x :: updateFirst p f xs

/-- The recurring source pattern
`ids.forEach(id => { const seat = seats.find(s => s.id === id); if (seat) mutate(seat); })`:
apply `f` to the first seat matching each id in `sids`, in order. -/
def markSeats (f : Seat → Seat) (sids : List Nat) (seats : List Seat) : List Seat :=
  sids.foldl (fun ss sid => updateFirst (fun s => s.id == sid) f ss) seats

/-- The default show catalog bootstrapped by `readJson(SHOWS_FILE, ...)`. -/
def defaultShows : List Show :=
  [⟨1, "2025-08-09 21:00", "Dune: Part Two"⟩,
   ⟨2, "2025-08-10 21:00", "Interstellar"⟩]

/-- Seat bootstrap from `bot.ts`: for each show, seats numbered 1..25 with
`id = show.id * 100 + n`, all `free`. -/
def initSeats (shows : List Show) : List Seat :=
  shows.foldr
    (fun sh acc =>
      ((List.range 25).map
        (fun k => ⟨sh.id * 100 + (k + 1), k + 1, sh.id, SeatStatus.free, none⟩)) ++ acc)
    []

/-- The freshly bootstrapped global state (empty `orders.json`). -/
def initialState : GlobalState :=
  ⟨defaultShows, initSeats defaultShows, []⟩

/-- JS `text.split(" ")` splits on every single space character and keeps
empty fragments; helper over the character list. -/
def splitSpacesAux : List Char → List Char → List (List Char)
  | [], acc => [acc.reverse]
  | c :: rest, acc =>
    if c = ' ' then acc.reverse :: splitSpacesAux rest [] else splitSpacesAux rest (c :: acc)

/-- JS `text.split(" ")`. -/
def splitWords (s : String) : List String :=
  (splitSpacesAux s.toList []).map String.mk

/-- JS `text.trim()`: strip whitespace from both ends. -/
def trimText (s : String) : String :=
  String.mk (((s.toList.dropWhile Char.isWhitespace).reverse.dropWhile Char.isWhitespace).reverse)

/-- Regex check `/^\d{4}$/` used for the payment proof. -/
def isLast4 (s : String) : Bool :=
  s.length == 4 && s.toList.all Char.isDigit

/-- Status of the first seat with the given id, if any. -/
def seatStatus (st : GlobalState) (sid : Nat) : Option SeatStatus :=
  (st.seats.find? (fun s => s.id == sid)).map Seat.status

/-- First order with the given id, if any. -/
def findOrder (st : GlobalState) (oid : String) : Option Order :=
  st.orders.find? (fun o => o.id == oid)

/-! ### Handlers -/

/-- `bot.callbackQuery(/^show_(\d+)/)`: on a known show, reset the session to
`picking` for that show with an empty selection (the global state and the
session's `orderId` field are untouched; the handler only builds a keyboard). -/
def showCb (st : GlobalState) (sess : PickSession) (showId : Nat) : PickSession :=
  match st.shows.find? (fun s => s.id == showId) with
  | none => sess
  | some _ => { sess with stage := Stage.picking, showId := some showId, seatIds := some [] }

/-- Replies of the seat-pick handler. -/
inductive SeatReply where
  | ack
  | taken
  | selected (n : Nat)
deriving DecidableEq, Repr

/-- `bot.callbackQuery(/^seat_(\d+)_(\d+)/)`: toggle a seat in the session's
selection.  The seat is looked up by the *callback's* `showId`/`seatNo`; a
missing or non-free seat answers "already taken" and changes nothing. -/
def seatCb (st : GlobalState) (sess : PickSession) (showId seatNo : Nat) :
    GlobalState × PickSession × SeatReply :=
  if sess.stage ≠ Stage.picking then (st, sess, SeatReply.ack)
  else
    match st.seats.find? (fun s => s.showId == showId && s.seatNo == seatNo) with
    | none => (st, sess, SeatReply.taken)
    | some seat =>
      if seat.status ≠ SeatStatus.free then (st, sess, SeatReply.taken)
      else
        let sel := sess.seatIds.getD []
        let newSel :=
          if sel.contains seat.id then sel.filter (fun sid => sid != seat.id)
          else sel ++ [seat.id]
        (st, { sess with seatIds := some newSel }, SeatReply.selected newSel.length)

/-- Replies of the finalize (`done_`) handler. -/
inductive DoneReply where
  | pickFirst
  | ordered (oid : String) (amount : Nat)
deriving DecidableEq, Repr

/-- `bot.callbackQuery(/^done_(\d+)/)` — finalize.  When the session is
`picking` with a non-empty selection it unconditionally marks every selected
seat (that exists) as `hold`, appends a new pending order and moves the
session to `await_payment`.  `tgUser` is `ctx.from.id`, `freshId` the nanoid
value, `now` the `Date.now()` timestamp. -/
def doneCb (st : GlobalState) (sess : PickSession) (tgUser : Nat)
    (freshId : String) (now : Nat) : GlobalState × PickSession × DoneReply :=
  if sess.stage ≠ Stage.picking ∨ (sess.seatIds.getD []).isEmpty then
    (st, sess, DoneReply.pickFirst)
  else
    let showId := sess.showId.getD 0
    let seatIds := sess.seatIds.getD []
    let seats1 := markSeats (fun s => { s with status := SeatStatus.hold }) seatIds st.seats
    let amount := seatIds.length * TICKET_PRICE
    let order : Order :=
      ⟨freshId, tgUser, showId, seatIds, amount, PayStatus.pending, none, now⟩
    ({ st with seats := seats1, orders := st.orders ++ [order] },
     { sess with stage := Stage.awaitPayment, orderId := some freshId },
     DoneReply.ordered freshId amount)

/-- Replies of the admin `/paid` command. -/
inductive PaidReply where
  | notFound
  | needLast4
  | marked (oid : String)
deriving DecidableEq, Repr

/-- Core of `bot.command("paid")` after argument parsing: `orderId?` and
`last4?` are the (possibly missing) second and third space-separated tokens.
Faithful to the source order of effects: the order's `payStatus` is set to
`"paid"` *before* the proof format is validated; on a malformed proof the
handler replies and returns with that mutation already applied.  On a valid
proof it also sets `last4` and marks every referenced seat `paid`. -/
def paidCore (st : GlobalState) (orderId? last4? : Option String) :
    GlobalState × PaidReply :=
  match orderId? with
  | none => (st, PaidReply.notFound)
  | some oid =>
    match st.orders.find? (fun o => o.id == oid) with
    | none => (st, PaidReply.notFound)
    | some o0 =>
      let orders1 :=
        updateFirst (fun o => o.id == oid)
          (fun o => { o with payStatus := PayStatus.paid }) st.orders
      let bad :=
        match last4? with
        | none => true
        | some l4 => !(isLast4 l4)
      if bad then ({ st with orders := orders1 }, PaidReply.needLast4)
      else
        let l4 := last4?.getD ""
        let orders2 :=
          updateFirst (fun o => o.id == oid)
            (fun o => { o with last4 := some l4 }) orders1
        let seats1 :=
          markSeats (fun s => { s with status := SeatStatus.paid }) o0.seatIds st.seats
        ({ st with seats := seats1, orders := orders2 }, PaidReply.marked oid)

/-- `bot.command("paid")` (admin gate already passed):
`const [, orderId, last4] = ctx.message.text.split(" ")`. -/
def paidCommand (st : GlobalState) (text : String) : GlobalState × PaidReply :=
  let parts := splitWords text
  paidCore st (parts.get? 1) (parts.get? 2)

/-- Replies of the admin `/free` command. -/
inductive FreeReply where
  | notFound
  | freed (oid : String)
deriving DecidableEq, Repr

/-- Core of `bot.command("free")` after argument parsing — the spec's
`forceRelease`.  On a known order it sets every referenced seat to `free`
unconditionally (including `paid` seats) and removes the order; otherwise it
replies "not found" and changes nothing. -/
def freeCore (st : GlobalState) (orderId? : Option String) : GlobalState × FreeReply :=
  match orderId? with
  | none => (st, FreeReply.notFound)
  | some oid =>
    match st.orders.findIdx? (fun o => o.id == oid) with
    | none => (st, FreeReply.notFound)
    | some idx =>
      let sids := ((st.orders.get? idx).map Order.seatIds).getD []
      let seats1 := markSeats (fun s => { s with status := SeatStatus.free }) sids st.seats
      ({ st with seats := seats1, orders := st.orders.eraseIdx idx }, FreeReply.freed oid)

/-- `bot.command("free")` (admin gate already passed):
`const [orderId] = ctx.message.text.split(" ").slice(1)`. -/
def freeCommand (st : GlobalState) (text : String) : GlobalState × FreeReply :=
  freeCore st ((splitWords text).get? 1)

/-- Replies of the admin cancel button. -/
inductive CancelReply where
  | notFound
  | cancelled (oid : String)
deriving DecidableEq, Repr

/-- `bot.callbackQuery(/^admin_cancel:(.+)$/)` (admin gate already passed) —
the plain cancel.  Frees each of the order's seats *unless* it is `paid`,
then removes the order. -/
def adminCancelCb (st : GlobalState) (orderId : String) : GlobalState × CancelReply :=
  match st.orders.findIdx? (fun o => o.id == orderId) with
  | none => (st, CancelReply.notFound)
  | some idx =>
    let sids := ((st.orders.get? idx).map Order.seatIds).getD []
    let seats1 :=
      markSeats
        (fun s => if s.status = SeatStatus.paid then s else { s with status := SeatStatus.free })
        sids st.seats
    ({ st with seats := seats1, orders := st.orders.eraseIdx idx }, CancelReply.cancelled orderId)

/-- Replies of the plain-text message handler. -/
inductive MsgReply where
  | ignored
  | need4
  | orderNotFound
  | thanks
deriving DecidableEq, Repr

/-- `bot.on("message:text")` — requester self-report of the payment proof.
Only acts in stage `await_payment` with a session order id; validates the
trimmed text as exactly four digits *before* touching anything; then sets the
order's `last4` and `payStatus`, marks every referenced seat `paid` and
resets the session to `{ stage: "idle" }`. -/
def messageText (st : GlobalState) (sess : PickSession) (text : String) :
    GlobalState × PickSession × MsgReply :=
  let oid := sess.orderId.getD ""
  if sess.stage ≠ Stage.awaitPayment ∨ oid = "" then (st, sess, MsgReply.ignored)
  else
    let l4 := trimText text
    if ¬ isLast4 l4 then (st, sess, MsgReply.need4)
    else
      match st.orders.find? (fun o => o.id == oid) with
      | none => (st, sess, MsgReply.orderNotFound)
      | some o0 =>
        let orders1 :=
          updateFirst (fun o => o.id == oid)
            (fun o => { o with last4 := some l4, payStatus := PayStatus.paid }) st.orders
        let seats1 :=
          markSeats (fun s => { s with status := SeatStatus.paid }) o0.seatIds st.seats
        ({ st with seats := seats1, orders := orders1 },
         ⟨Stage.idle, none, none, none⟩, MsgReply.thanks)

/-! ### The expiry sweep (absent from the source)

The spec's §4.3 specifies `expireStaleHolds(now, ttl)`, but no such sweep
exists anywhere in `bot.ts`; it is modelled here from the spec's words. -/

/-- Whether an order is swept by `expireStaleHolds`: `payStatus == Pending`
and `createdAt < now - ttl` (truncated `Nat` subtraction matches the
timestamp arithmetic, since timestamps are non-negative). -/
def isStale (now ttl : Nat) (o : Order) : Bool :=
  o.payStatus == PayStatus.pending && decide (o.created < now - ttl)

/-- The per-seat release performed by the spec's `cancel`: a `Held` seat goes
back to `Free`; any other seat is untouched. -/
def releaseHold (s : Seat) : Seat :=
  if s.status = SeatStatus.hold then { s with status := SeatStatus.free } else s

/-- Modelled from the spec: `expireStaleHolds(now, ttl) -> count` (§4.3) is
missing from the source.  "Sweeps all orders with `payStatus==Pending` and
`createdAt < now - ttl`; for each, performs the same release as `cancel`"
(release every `Held` seat of the order back to `Free`, leave `Paid` seats
untouched, remove the order from the active set), returning the number of
orders swept. -/
def expireStaleHolds (st : GlobalState) (now ttl : Nat) : GlobalState × Nat :=
  let stale := st.orders.filter (isStale now ttl)
  let seats1 := stale.foldl (fun ss o => markSeats releaseHold o.seatIds ss) st.seats
  ({ st with seats := seats1,
             orders := st.orders.filter (fun o => !(isStale now ttl o)) },
   stale.length)

/-! ### The seat/order link invariant (claim C2) -/

/-- Whether a seat's `orderId` (`heldByOrder`) is set and refers to an
existing order whose `seatIds` contains this seat's id. -/
def seatLinkedB (st : GlobalState) (s : Seat) : Bool :=
  match s.orderId with
  | none => false
  | some oid => st.orders.any (fun o => o.id == oid && o.seatIds.contains s.id)

/-- The spec's seat/order invariant as a boolean:
`status == Held or Paid` ⟺ `heldByOrder` is set and refers to an existing
order whose `seatIds` contains this seat's id. -/
def seatOrderInvariantB (st : GlobalState) : Bool :=
  st.seats.all
    (fun s => ((s.status == SeatStatus.hold) || (s.status == SeatStatus.paid)) == seatLinkedB st s)

/-! ### Pointwise characterization of the find-and-mutate pattern -/

theorem updateFirst_length (p : α → Bool) (f : α → α) (l : List α) :
    (updateFirst p f l).length = l.length := by
  induction l with
  | nil => rfl
  | cons x xs ih =>
    simp only [updateFirst]
    split <;> simp [ih]

theorem updateFirst_map_id (p : Seat → Bool) (f : Seat → Seat)
    (hid : ∀ s, (f s).id = s.id) (l : List Seat) :
    (updateFirst p f l).map Seat.id = l.map Seat.id := by
  induction l with
  | nil => rfl
  | cons x xs ih =>
    simp only [updateFirst]
    split <;> simp [hid, ih]

/-- With distinct seat ids, mutating the first seat matching an id acts
pointwise: the (unique) seat with that id is mapped through `f`, every other
position is untouched. -/
theorem updateFirst_get? (f : Seat → Seat) (sid : Nat) (l : List Seat)
    (hnd : (l.map Seat.id).Nodup) (i : Nat) :
    (updateFirst (fun s => s.id == sid) f l).get? i =
      (l.get? i).map (fun x => if x.id = sid then f x else x) := by
  induction l generalizing i with
  | nil => simp [updateFirst]
  | cons x xs ih =>
    rw [List.map_cons, List.nodup_cons] at hnd
    simp only [updateFirst]
    by_cases hx : x.id = sid
    · rw [if_pos (by simp [hx])]
      cases i with
      | zero => simp [hx]
      | succ j =>
        simp only [List.get?_cons_succ]
        cases hj : xs.get? j with
        | none => rfl
        | some y =>
          have hyx : y ∈ xs := List.get?_mem hj
          have : y.id ≠ sid := by
            intro hcon
            exact hnd.1 (by rw [hx, ← hcon]; exact List.mem_map_of_mem Seat.id hyx)
          simp [this]
    · rw [if_neg (by simp [hx])]
      cases i with
      | zero => simp [hx]
      | succ j => simpa using ih hnd.2 j

/-- If every matching element of the list is a fixed point of `f`,
`updateFirst` changes nothing. -/
theorem updateFirst_eq_self (p : α → Bool) (f : α → α) (l : List α)
    (h : ∀ x ∈ l, p x = true → f x = x) : updateFirst p f l = l := by
  induction l with
  | nil => rfl
  | cons x xs ih =>
    simp only [updateFirst]
    split
    · rename_i hp
      rw [h x (List.mem_cons_self x xs) hp]
    · rw [ih (fun y hy hp => h y (List.mem_cons_of_mem x hy) hp)]

/-- If the first element matching `p` is a fixed point of `f`,
`updateFirst` changes nothing. -/
theorem updateFirst_eq_self_of_find? (p : α → Bool) (f : α → α) (l : List α)
    (a : α) (hf : l.find? p = some a) (hfix : f a = a) : updateFirst p f l = l := by
  induction l with
  | nil => rfl
  | cons x xs ih =>
    simp only [updateFirst]
    by_cases hp : p x = true
    · rw [List.find?_cons_of_pos _ hp] at hf
      cases hf
      rw [if_pos hp, hfix]
    · rw [List.find?_cons_of_neg _ (by simpa using hp)] at hf
      rw [if_neg hp, ih hf]

theorem markSeats_map_id (f : Seat → Seat) (hid : ∀ s, (f s).id = s.id)
    (sids : List Nat) (l : List Seat) :
    (markSeats f sids l).map Seat.id = l.map Seat.id := by
  induction sids generalizing l with
  | nil => rfl
  | cons sid rest ih =>
    simp only [markSeats, List.foldl_cons] at ih ⊢
    rw [ih, updateFirst_map_id _ _ hid]

/-- With distinct seat ids and an id-preserving, idempotent mutation,
the `forEach`/`find` marking pattern acts pointwise: a seat is mapped
through `f` exactly when its id occurs in `sids`. -/
theorem markSeats_get? (f : Seat → Seat) (hid : ∀ s, (f s).id = s.id)
    (hidem : ∀ s, f (f s) = f s) (sids : List Nat) (l : List Seat)
    (hnd : (l.map Seat.id).Nodup) (i : Nat) :
    (markSeats f sids l).get? i =
      (l.get? i).map (fun x => if x.id ∈ sids then f x else x) := by
  induction sids generalizing l with
  | nil =>
    simp only [markSeats, List.foldl_nil, List.not_mem_nil, if_false]
    cases l.get? i <;> rfl
  | cons sid rest ih =>
    simp only [markSeats, List.foldl_cons]
    have hnd1 : ((updateFirst (fun s => s.id == sid) f l).map Seat.id).Nodup := by
      rw [updateFirst_map_id _ _ hid]; exact hnd
    have step := updateFirst_get? f sid l hnd i
    simp only [markSeats] at ih
    rw [ih (updateFirst (fun s => s.id == sid) f l) hnd1, step]
    cases l.get? i with
    | none => rfl
    | some x =>
      by_cases hx : x.id = sid
      · by_cases hr : x.id ∈ rest
        · simp [hx, hr, hid x, hidem x]
        · simp [hx, hr, hid x, hidem x]
      · by_cases hr : x.id ∈ rest
        · simp [hx, hr, hid x]
        · simp [hx, hr]

/-- If every seat of the list whose id occurs in `sids` is a fixed point of
`f`, the marking pass changes nothing. -/
theorem markSeats_eq_self (f : Seat → Seat) (sids : List Nat) (l : List Seat)
    (h : ∀ sid ∈ sids, ∀ x ∈ l, x.id = sid → f x = x) : markSeats f sids l = l := by
  induction sids with
  | nil => rfl
  | cons sid rest ih =>
    simp only [markSeats, List.foldl_cons]
    rw [updateFirst_eq_self _ _ _
      (fun x hx hp => h sid (List.mem_cons_self sid rest) x hx (by simpa using hp))]
    exact ih (fun sid' hs x hx hp => h sid' (List.mem_cons_of_mem sid hs) x hx hp)

/-! ### Concrete reachable traces

All traces start from the bootstrapped `initialState` (two shows, 25 free
seats each) and use only the handlers above, so every state below is
reachable by a sequence of bot interactions. -/

/-- Session of a user who opened show 1 and picked seat 1 (seat id 101):
`{stage: picking, showId: 1, seatIds: [101]}`. -/
def tracePickSession : PickSession :=
  (seatCb initialState (showCb initialState initialSession 1) 1 1).2.1

/-- State after user A finalizes the selection `[101]` (order `OAAAAA`). -/
def traceHoldA : GlobalState :=
  (doneCb initialState tracePickSession 1 "OAAAAA" 0).1

/-- State after user B — whose pick of seat 101 raced with A's — also
finalizes `[101]` (order `OBBBBB`): both orders reference seat 101. -/
def traceHoldAB : GlobalState :=
  (doneCb traceHoldA tracePickSession 2 "OBBBBB" 0).1

/-- User B's session right after B finalizes `[101]` from the fresh state. -/
def traceSessB : PickSession :=
  (doneCb initialState tracePickSession 2 "OBBBBB" 0).2.1

/-- State after B (alone) holds seat 101 as order `OBBBBB`. -/
def traceHoldB : GlobalState :=
  (doneCb initialState tracePickSession 2 "OBBBBB" 0).1

/-- State after B self-reports payment `"1234"`: seat 101 is `paid`, order
`OBBBBB` is `paid`.  User A's stale session still has seat 101 selected. -/
def tracePaidB : GlobalState :=
  (messageText traceHoldB traceSessB "1234").1

/-- Claim C1: the `done_` handler performs no availability check at all: with
seat 101 already `paid` (B held and paid it after A's pick), A's finalize
does not fail with `SeatUnavailable` — it overwrites the seat's status to
`hold` and creates order `OAAAAA` anyway, contradicting the claimed
all-or-nothing conflict semantics. -/
theorem c1_finalize_has_no_conflict_check :
    seatStatus tracePaidB 101 = some SeatStatus.paid
    ∧ (doneCb tracePaidB tracePickSession 1 "OAAAAA" 5).2.2 = DoneReply.ordered "OAAAAA" 600
    ∧ seatStatus (doneCb tracePaidB tracePickSession 1 "OAAAAA" 5).1 101
        = some SeatStatus.hold
    ∧ findOrder (doneCb tracePaidB tracePickSession 1 "OAAAAA" 5).1 "OAAAAA"
        = some ⟨"OAAAAA", 1, 1, [101], 600, PayStatus.pending, none, 5⟩ := by
  decide

/-- Claim C2: a successful hold never sets `heldByOrder`: after finalize the
held seat 101 has `orderId = none` even though order `OAAAAA` exists and
contains it, so the claimed `Held/Paid ⟺ heldByOrder` invariant is false. -/
theorem c2_hold_never_sets_heldByOrder :
    traceHoldA.seats.find? (fun s => s.id == 101)
      = some ⟨101, 1, 1, SeatStatus.hold, none⟩
    ∧ (findOrder traceHoldA "OAAAAA").map Order.seatIds = some [101]
    ∧ seatOrderInvariantB traceHoldA = false := by
  decide

/-- Claim C4: a reachable direct `Free -> Paid` transition.  A and B both
hold seat 101 (orders `OAAAAA`, `OBBBBB`); `/free OAAAAA` releases the seat
to `free` while `OBBBBB` still references it; the single step
`/paid OBBBBB 1234` then takes seat 101 from `free` directly to `paid`. -/
theorem c4_direct_free_to_paid :
    seatStatus (freeCommand traceHoldAB "/free OAAAAA").1 101 = some SeatStatus.free
    ∧ (findOrder (freeCommand traceHoldAB "/free OAAAAA").1 "OBBBBB").map Order.payStatus
        = some PayStatus.pending
    ∧ seatStatus
        (paidCommand (freeCommand traceHoldAB "/free OAAAAA").1 "/paid OBBBBB 1234").1 101
        = some SeatStatus.paid := by
  decide

/-- Claim C5: a seat pick whose show does not match the session's show is
accepted, not rejected: with the session on show 2, pressing a (stale)
`seat_1_1` button of show 1 adds seat 101 — a show-1 seat — to the
selection, and the created order has `showId = 2` with `seatIds = [101]`,
mixing events. -/
theorem c5_cross_event_seat_enters_order :
    (showCb initialState initialSession 2).showId = some 2
    ∧ (seatCb initialState (showCb initialState initialSession 2) 1 1).2.2
        = SeatReply.selected 1
    ∧ (initialState.seats.find? (fun s => s.id == 101)).map Seat.showId = some 1
    ∧ findOrder
        (doneCb initialState
          (seatCb initialState (showCb initialState initialSession 2) 1 1).2.1
          5 "OC5AAA" 0).1 "OC5AAA"
        = some ⟨"OC5AAA", 5, 2, [101], 600, PayStatus.pending, none, 0⟩ := by
  decide

/-- Claim C6: the `/paid` admin command mutates before validating: on the
malformed proof `"abcd"` it replies with the proof-format error yet has
already flipped the order's `payStatus` to `paid` (leaving `last4` unset and
seats untouched), so the failed call is not mutation-free. -/
theorem c6_malformed_proof_still_mutates :
    (findOrder traceHoldA "OAAAAA").map Order.payStatus = some PayStatus.pending
    ∧ (paidCommand traceHoldA "/paid OAAAAA abcd").2 = PaidReply.needLast4
    ∧ (findOrder (paidCommand traceHoldA "/paid OAAAAA abcd").1 "OAAAAA").map Order.payStatus
        = some PayStatus.paid
    ∧ (findOrder (paidCommand traceHoldA "/paid OAAAAA abcd").1 "OAAAAA").map Order.last4
        = some none
    ∧ (paidCommand traceHoldA "/paid OAAAAA abcd").1.seats = traceHoldA.seats := by
  decide

/-- State in which order `OAAAAA` is confirmed paid with proof `"1234"`
(seat 101 `paid`) and the racing duplicate order `OBBBBB` is then
force-released, returning seat 101 to `free` while `OAAAAA` stays `paid`. -/
def c9Freed : GlobalState :=
  (freeCommand (paidCommand traceHoldAB "/paid OAAAAA 1234").1 "/free OBBBBB").1

/-- Claim C9 counterexample: a reachable state with order `OAAAAA` already
`paid` and its proof set, where re-confirming with the same proof is *not* a
no-op: referenced seat 101 is currently `free` and the repeated confirmation
flips it to `paid`, changing the state. -/
theorem c9_reconfirm_not_always_noop :
    (findOrder c9Freed "OAAAAA").map Order.payStatus = some PayStatus.paid
    ∧ (findOrder c9Freed "OAAAAA").map Order.last4 = some (some "1234")
    ∧ seatStatus c9Freed 101 = some SeatStatus.free
    ∧ (paidCommand c9Freed "/paid OAAAAA 1234").2 = PaidReply.marked "OAAAAA"
    ∧ seatStatus (paidCommand c9Freed "/paid OAAAAA 1234").1 101 = some SeatStatus.paid
    ∧ (paidCommand c9Freed "/paid OAAAAA 1234").1 ≠ c9Freed := by
  decide

/-! ### Claim C10: rejected seat picks are no-ops -/

/-- Claim C10: a seat-pick on a seat that does not exist (no seat matches the
callback's show/seat number) or whose status is not `free` answers "already
taken" and leaves the inventory, the orders and the session — in particular
the selected-seat list — exactly unchanged. -/
theorem c10_pick_on_unavailable_seat_is_noop (st : GlobalState) (sess : PickSession)
    (showId seatNo : Nat) (hstage : sess.stage = Stage.picking)
    (hseat : st.seats.find? (fun s => s.showId == showId && s.seatNo == seatNo) = none
      ∨ ∃ s, st.seats.find? (fun s => s.showId == showId && s.seatNo == seatNo) = some s
          ∧ s.status ≠ SeatStatus.free) :
    seatCb st sess showId seatNo = (st, sess, SeatReply.taken) := by
  unfold seatCb
  rw [if_neg (by simp [hstage])]
  rcases hseat with h | ⟨s, hs, hfree⟩
  · rw [h]
  · rw [hs]
    exact if_pos hfree

/-- Witness for C10 at a concrete reachable input: after A holds seat 101,
picking it again (status `hold`) is rejected and changes nothing. -/
theorem c10_witness :
    tracePickSession.stage = Stage.picking
    ∧ (∃ s, traceHoldA.seats.find?
          (fun s => s.showId == 1 && s.seatNo == 1) = some s ∧ s.status ≠ SeatStatus.free)
    ∧ seatCb traceHoldA tracePickSession 1 1
        = (traceHoldA, tracePickSession, SeatReply.taken) :=
  ⟨by decide, ⟨⟨101, 1, 1, SeatStatus.hold, none⟩, by decide, by decide⟩,
   c10_pick_on_unavailable_seat_is_noop traceHoldA tracePickSession 1 1 (by decide)
     (Or.inr ⟨⟨101, 1, 1, SeatStatus.hold, none⟩, by decide, by decide⟩)⟩

/-! ### Claim C7: plain cancel never un-sells a paid seat -/

/-- Claim C7: on an existing order, the plain admin cancel removes the order
and, seat-wise: a `paid` seat is never changed; a seat not referenced by the
order is never changed; a referenced seat that is not `paid` (in particular a
`hold` one) is released to `free`. -/
theorem c7_cancel_never_unsells_paid (st : GlobalState) (orderId : String)
    (idx : Nat) (o0 : Order)
    (hfind : st.orders.findIdx? (fun o => o.id == orderId) = some idx)
    (hget : st.orders.get? idx = some o0)
    (hnd : (st.seats.map Seat.id).Nodup) :
    (adminCancelCb st orderId).2 = CancelReply.cancelled orderId
    ∧ (adminCancelCb st orderId).1.orders = st.orders.eraseIdx idx
    ∧ ∀ i x, st.seats.get? i = some x →
        (x.status = SeatStatus.paid → (adminCancelCb st orderId).1.seats.get? i = some x)
        ∧ (x.id ∉ o0.seatIds → (adminCancelCb st orderId).1.seats.get? i = some x)
        ∧ (x.id ∈ o0.seatIds → x.status ≠ SeatStatus.paid →
            (adminCancelCb st orderId).1.seats.get? i
              = some { x with status := SeatStatus.free }) := by
  have hres : adminCancelCb st orderId =
      ({ st with
          seats := markSeats
            (fun s => if s.status = SeatStatus.paid then s else { s with status := SeatStatus.free })
            o0.seatIds st.seats,
          orders := st.orders.eraseIdx idx }, CancelReply.cancelled orderId) := by
    have hget' : st.orders[idx]? = some o0 := by simpa using hget
    simp [adminCancelCb, hfind, hget']
  have hpt := markSeats_get?
    (fun s => if s.status = SeatStatus.paid then s else { s with status := SeatStatus.free })
    (fun s => by by_cases h : s.status = SeatStatus.paid <;> simp [h])
    (fun s => by by_cases h : s.status = SeatStatus.paid <;> simp [h])
    o0.seatIds st.seats hnd
  refine ⟨by simp [hres], by simp [hres], fun i x hx => ?_⟩
  rw [hres]
  simp only [hpt i, hx, Option.map_some']
  refine ⟨fun hpaid => ?_, fun hmem => ?_, fun hmem hnp => ?_⟩
  · by_cases hm : x.id ∈ o0.seatIds <;> simp [hm, hpaid]
  · simp [hmem]
  · simp [hmem, hnp]

/-- Order used by the C7 witness: holds seats 101 and 102. -/
def c7Order : Order := ⟨"OCANCL", 1, 1, [101, 102], 1200, PayStatus.pending, none, 0⟩

/-- State used by the C7 witness: seat 101 `hold`, seat 102 `paid`,
seat 103 `free`, one pending order `OCANCL` over 101 and 102. -/
def c7State : GlobalState :=
  ⟨defaultShows,
   [⟨101, 1, 1, SeatStatus.hold, none⟩, ⟨102, 2, 1, SeatStatus.paid, none⟩,
    ⟨103, 3, 1, SeatStatus.free, none⟩],
   [c7Order]⟩

/-- Witness for C7 at a concrete input: cancelling `OCANCL` frees held seat
101, never changes paid seat 102, leaves unrelated seat 103 alone and
removes the order. -/
theorem c7_witness :
    c7State.orders.findIdx? (fun o => o.id == "OCANCL") = some 0
    ∧ c7State.orders.get? 0 = some c7Order
    ∧ (c7State.seats.map Seat.id).Nodup
    ∧ ((adminCancelCb c7State "OCANCL").2 = CancelReply.cancelled "OCANCL"
      ∧ (adminCancelCb c7State "OCANCL").1.orders = c7State.orders.eraseIdx 0
      ∧ ∀ i x, c7State.seats.get? i = some x →
          (x.status = SeatStatus.paid → (adminCancelCb c7State "OCANCL").1.seats.get? i = some x)
          ∧ (x.id ∉ c7Order.seatIds → (adminCancelCb c7State "OCANCL").1.seats.get? i = some x)
          ∧ (x.id ∈ c7Order.seatIds → x.status ≠ SeatStatus.paid →
              (adminCancelCb c7State "OCANCL").1.seats.get? i
                = some { x with status := SeatStatus.free })) :=
  ⟨by decide, by decide, by decide,
   c7_cancel_never_unsells_paid c7State "OCANCL" 0 c7Order (by decide) (by decide) (by decide)⟩

/-! ### Claim C8: forceRelease -/

/-- Claim C8: `/free` (the spec's `forceRelease`).  With no or an unknown
order id it replies "not found" and mutates nothing; on an existing order it
sets every seat referenced by the order to `free` regardless of its current
status (including `paid`), leaves every other seat unchanged, and removes
the order from the active set. -/
theorem c8_forceRelease (st : GlobalState) (oid : String) :
    (freeCore st none = (st, FreeReply.notFound)
     ∧ (st.orders.findIdx? (fun o => o.id == oid) = none →
         freeCore st (some oid) = (st, FreeReply.notFound)))
    ∧ ∀ idx o0, st.orders.findIdx? (fun o => o.id == oid) = some idx →
        st.orders.get? idx = some o0 → (st.seats.map Seat.id).Nodup →
        (freeCore st (some oid)).2 = FreeReply.freed oid
        ∧ (freeCore st (some oid)).1.orders = st.orders.eraseIdx idx
        ∧ ∀ i x, st.seats.get? i = some x →
            (freeCore st (some oid)).1.seats.get? i =
              some (if x.id ∈ o0.seatIds then { x with status := SeatStatus.free } else x) := by
  refine ⟨⟨rfl, fun h => by simp [freeCore, h]⟩, fun idx o0 hfind hget hnd => ?_⟩
  have hget' : st.orders[idx]? = some o0 := by simpa using hget
  have hres : freeCore st (some oid) =
      ({ st with
          seats := markSeats (fun s => { s with status := SeatStatus.free }) o0.seatIds st.seats,
          orders := st.orders.eraseIdx idx }, FreeReply.freed oid) := by
    simp [freeCore, hfind, hget']
  have hpt := markSeats_get? (fun s => { s with status := SeatStatus.free })
    (fun s => rfl) (fun s => rfl) o0.seatIds st.seats hnd
  refine ⟨by simp [hres], by simp [hres], fun i x hx => ?_⟩
  rw [hres]
  simp only [hpt i, hx, Option.map_some']

/-- Order used by the C8 witness: references a held and a paid seat. -/
def c8Order : Order := ⟨"OFREED", 3, 1, [101, 102], 1200, PayStatus.paid, some "1234", 0⟩

/-- State used by the C8 witness: seat 101 `hold`, seat 102 `paid`,
seat 103 `free`, one order `OFREED` over 101 and 102. -/
def c8State : GlobalState :=
  ⟨defaultShows,
   [⟨101, 1, 1, SeatStatus.hold, none⟩, ⟨102, 2, 1, SeatStatus.paid, none⟩,
    ⟨103, 3, 1, SeatStatus.free, none⟩],
   [c8Order]⟩

/-- Witness for C8 at a concrete input: force-releasing `OFREED` frees both
seat 101 (`hold`) and seat 102 (`paid`), leaves seat 103 alone, removes the
order, and an unknown id is a no-op. -/
theorem c8_witness :
    c8State.orders.findIdx? (fun o => o.id == "OFREED") = some 0
    ∧ c8State.orders.get? 0 = some c8Order
    ∧ (c8State.seats.map Seat.id).Nodup
    ∧ c8State.orders.findIdx? (fun o => o.id == "NOSUCH") = none
    ∧ freeCore c8State (some "NOSUCH") = (c8State, FreeReply.notFound)
    ∧ ((freeCore c8State (some "OFREED")).2 = FreeReply.freed "OFREED"
      ∧ (freeCore c8State (some "OFREED")).1.orders = c8State.orders.eraseIdx 0
      ∧ ∀ i x, c8State.seats.get? i = some x →
          (freeCore c8State (some "OFREED")).1.seats.get? i =
            some (if x.id ∈ c8Order.seatIds then { x with status := SeatStatus.free } else x)) :=
  ⟨by decide, by decide, by decide, by decide,
   (c8_forceRelease c8State "NOSUCH").1.2 (by decide),
   (c8_forceRelease c8State "OFREED").2 0 c8Order (by decide) (by decide) (by decide)⟩

/-! ### Claim C9: idempotence of re-confirmation -/

/-- Claim C9 (amended): re-confirming an order that is already `paid` with
the same proof, in a state where every seat the order references is already
`paid`, raises no error and changes nothing at all: the whole state is
returned untouched and the reply is the success reply. -/
theorem c9_reconfirm_noop_when_seats_paid (st : GlobalState) (oid l4 : String)
    (o0 : Order)
    (hfind : st.orders.find? (fun o => o.id == oid) = some o0)
    (hpaid : o0.payStatus = PayStatus.paid)
    (hproof : o0.last4 = some l4)
    (hvalid : isLast4 l4 = true)
    (hseats : ∀ s ∈ st.seats, s.id ∈ o0.seatIds → s.status = SeatStatus.paid) :
    paidCore st (some oid) (some l4) = (st, PaidReply.marked oid) := by
  have horders1 : updateFirst (fun o => o.id == oid)
      (fun o => { o with payStatus := PayStatus.paid }) st.orders = st.orders := by
    refine updateFirst_eq_self_of_find? _ _ _ o0 hfind ?_
    cases o0
    simp only at hpaid
    simp [hpaid]
  have horders2 : updateFirst (fun o => o.id == oid)
      (fun o => { o with last4 := some l4 }) st.orders = st.orders := by
    refine updateFirst_eq_self_of_find? _ _ _ o0 hfind ?_
    cases o0
    simp only at hproof
    simp [hproof]
  have hseats1 : markSeats (fun s => { s with status := SeatStatus.paid })
      o0.seatIds st.seats = st.seats := by
    refine markSeats_eq_self _ _ _ (fun sid hsid x hx hxid => ?_)
    have := hseats x hx (hxid ▸ hsid)
    cases x
    simp only at this
    simp [this]
  simp [paidCore, hfind, hvalid, horders1, horders2, hseats1]

/-- State used by the C9 witness: seat 101 already `paid` and order
`OAAAAA` already `paid` with proof `"1234"`. -/
def c9State : GlobalState :=
  ⟨defaultShows,
   [⟨101, 1, 1, SeatStatus.paid, none⟩],
   [⟨"OAAAAA", 1, 1, [101], 600, PayStatus.paid, some "1234", 0⟩]⟩

/-- Witness for the amended C9 at a concrete input: re-confirming the
already-paid order `OAAAAA` with the same proof returns the state untouched
with the success reply. -/
theorem c9_witness :
    c9State.orders.find? (fun o => o.id == "OAAAAA")
        = some ⟨"OAAAAA", 1, 1, [101], 600, PayStatus.paid, some "1234", 0⟩
    ∧ isLast4 "1234" = true
    ∧ (∀ s ∈ c9State.seats, s.id ∈ [101] → s.status = SeatStatus.paid)
    ∧ paidCore c9State (some "OAAAAA") (some "1234") = (c9State, PaidReply.marked "OAAAAA") :=
  ⟨by decide, by decide, by decide,
   c9_reconfirm_noop_when_seats_paid c9State "OAAAAA" "1234"
     ⟨"OAAAAA", 1, 1, [101], 600, PayStatus.paid, some "1234", 0⟩
     (by decide) (by decide) (by decide) (by decide) (by decide)⟩

/-! ### Claim C3: the expiry sweep -/

theorem releaseHold_id (s : Seat) : (releaseHold s).id = s.id := by
  unfold releaseHold
  split <;> rfl

theorem releaseHold_idem (s : Seat) : releaseHold (releaseHold s) = releaseHold s := by
  by_cases h : s.status = SeatStatus.hold <;> simp [releaseHold, h]

/-- Sweeping a list of orders acts pointwise on seats: a seat referenced by
some swept order goes through the `cancel` release, all others stay put. -/
theorem releaseFold_get? (os : List Order) (l : List Seat)
    (hnd : (l.map Seat.id).Nodup) (i : Nat) :
    (os.foldl (fun ss o => markSeats releaseHold o.seatIds ss) l).get? i =
      (l.get? i).map (fun x => if ∃ o ∈ os, x.id ∈ o.seatIds then releaseHold x else x) := by
  induction os generalizing l with
  | nil =>
    simp only [List.foldl_nil, List.not_mem_nil]
    cases l.get? i <;> simp
  | cons o rest ih =>
    simp only [List.foldl_cons]
    have hnd1 : ((markSeats releaseHold o.seatIds l).map Seat.id).Nodup := by
      rw [markSeats_map_id _ releaseHold_id]
      exact hnd
    rw [ih _ hnd1, markSeats_get? releaseHold releaseHold_id releaseHold_idem _ _ hnd i]
    cases l.get? i with
    | none => rfl
    | some x =>
      by_cases hm : x.id ∈ o.seatIds
      · by_cases hr : ∃ o' ∈ rest, x.id ∈ o'.seatIds
        · simp [hm, hr, releaseHold_id, releaseHold_idem]
        · simp [hm, hr, releaseHold_id, releaseHold_idem]
      · by_cases hr : ∃ o' ∈ rest, x.id ∈ o'.seatIds
        · simp [hm, hr]
        · simp [hm, hr]

theorem filter_not_filter_self (p : α → Bool) (l : List α) :
    (l.filter (fun a => !(p a))).filter p = [] := by
  induction l with
  | nil => rfl
  | cons x xs ih => by_cases h : p x <;> simp [List.filter_cons, h, ih]

theorem filter_not_idemp (p : α → Bool) (l : List α) :
    (l.filter (fun a => !(p a))).filter (fun a => !(p a)) = l.filter (fun a => !(p a)) := by
  induction l with
  | nil => rfl
  | cons x xs ih => by_cases h : p x <;> simp [List.filter_cons, h, ih]

/-- Claim C3: `expireStaleHolds(now, ttl)` keeps exactly the orders that are
not (`Pending` and older than `now - ttl`), returns the number of swept
orders, performs the `cancel` release precisely on the seats referenced by a
swept order (all other seats untouched), and an immediate second call
changes nothing and sweeps zero orders. -/
theorem c3_expire_releases_exactly_stale (st : GlobalState) (now ttl : Nat)
    (hnd : (st.seats.map Seat.id).Nodup) :
    (∀ o, o ∈ (expireStaleHolds st now ttl).1.orders ↔
        o ∈ st.orders ∧ ¬ (o.payStatus = PayStatus.pending ∧ o.created < now - ttl))
    ∧ (expireStaleHolds st now ttl).2 = (st.orders.filter (isStale now ttl)).length
    ∧ (∀ i x, st.seats.get? i = some x →
        (expireStaleHolds st now ttl).1.seats.get? i =
          some (if ∃ o ∈ st.orders.filter (isStale now ttl), x.id ∈ o.seatIds
                then releaseHold x else x))
    ∧ expireStaleHolds (expireStaleHolds st now ttl).1 now ttl
        = ((expireStaleHolds st now ttl).1, 0) := by
  refine ⟨fun o => ?_, rfl, fun i x hx => ?_, ?_⟩
  · simp only [expireStaleHolds, List.mem_filter, isStale, Bool.not_eq_true', Bool.and_eq_false_iff,
      beq_eq_false_iff_ne, ne_eq, decide_eq_false_iff_not, Nat.not_lt, not_and]
    constructor
    · rintro ⟨hmem, h | h⟩
      · exact ⟨hmem, fun hp => absurd hp h⟩
      · exact ⟨hmem, fun _ => h⟩
    · rintro ⟨hmem, h⟩
      by_cases hp : o.payStatus = PayStatus.pending
      · exact ⟨hmem, Or.inr (h hp)⟩
      · exact ⟨hmem, Or.inl hp⟩
  · have hpt := releaseFold_get? (st.orders.filter (isStale now ttl)) st.seats hnd i
    simp only [expireStaleHolds]
    rw [hpt, hx, Option.map_some']
  · have h1 : ((expireStaleHolds st now ttl).1.orders).filter (isStale now ttl) = [] :=
      filter_not_filter_self (isStale now ttl) st.orders
    have h2 : ((expireStaleHolds st now ttl).1.orders).filter
        (fun o => !(isStale now ttl o)) = (expireStaleHolds st now ttl).1.orders :=
      filter_not_idemp (isStale now ttl) st.orders
    conv_lhs => rw [expireStaleHolds]
    rw [h1, h2]
    rfl

/-- State used by the C3 witness: one stale pending order `OLD111` holding
seat 101 (with seat 102 paid under it), and one fresh pending order `NEW222`
on seat 103. -/
def c3State : GlobalState :=
  ⟨defaultShows,
   [⟨101, 1, 1, SeatStatus.hold, none⟩, ⟨102, 2, 1, SeatStatus.paid, none⟩,
    ⟨103, 3, 1, SeatStatus.free, none⟩],
   [⟨"OLD111", 1, 1, [101, 102], 1200, PayStatus.pending, none, 0⟩,
    ⟨"NEW222", 2, 1, [103], 600, PayStatus.pending, none, 900⟩]⟩

/-- Witness for C3 at a concrete input (`now = 1000`, `ttl = 500`): exactly
the stale order is swept, its held seat released, everything else untouched,
and the second sweep is a no-op. -/
theorem c3_witness :
    (c3State.seats.map Seat.id).Nodup
    ∧ ((∀ o, o ∈ (expireStaleHolds c3State 1000 500).1.orders ↔
          o ∈ c3State.orders ∧ ¬ (o.payStatus = PayStatus.pending ∧ o.created < 1000 - 500))
      ∧ (expireStaleHolds c3State 1000 500).2
          = (c3State.orders.filter (isStale 1000 500)).length
      ∧ (∀ i x, c3State.seats.get? i = some x →
          (expireStaleHolds c3State 1000 500).1.seats.get? i =
            some (if ∃ o ∈ c3State.orders.filter (isStale 1000 500), x.id ∈ o.seatIds
                  then releaseHold x else x))
      ∧ expireStaleHolds (expireStaleHolds c3State 1000 500).1 1000 500
          = ((expireStaleHolds c3State 1000 500).1, 0)) :=
  ⟨by decide, c3_expire_releases_exactly_stale c3State 1000 500 (by decide)⟩

end SeaCinema
